import Mathlib

/-
Verification of the KILNSOFT repository: a 2D canvas ember-particle
animation (script.js) and a WebGL2 procedural smoke shader
(shader-smoke.js).  The JavaScript numeric state is embedded over ℚ;
the host math library (Math.sin, Math.PI) is abstracted as a structure
parameter, and the per-frame Math.random() draws are passed explicitly.
-/

set_option autoImplicit false

namespace Kilnsoft

/-- Abstraction of the host math library used by both scripts:
`sin` models Math.sin (and the GLSL sin builtin), `PI` models Math.PI. -/
structure JSMath where
  sin : ℚ → ℚ
  PI : ℚ

/-- One ember particle, mirroring the object literal pushed in
script.js lines 12–25. -/
structure Particle where
  baseX : ℚ
  x : ℚ
  y : ℚ
  baseSize : ℚ
  size : ℚ
  speed : ℚ
  drift : ℚ
  flickerPhase : ℚ
  loopRadius : ℚ
  angle : ℚ
  angularSpeed : ℚ
deriving DecidableEq

/-- The Math.random() draws consumed by the respawn branch of
animateParticles (script.js lines 68–74), in program order:
`rBaseX` for the new baseX, `rAngle` for the new angle, `rLoop` for
the 40% loop test, `rRadius` for the loop radius magnitude. -/
structure RespawnRand where
  rBaseX : ℚ
  rAngle : ℚ
  rLoop : ℚ
  rRadius : ℚ
deriving DecidableEq

/-- The flicker scalar of drawEmber (script.js line 32):
`0.3 + 0.2 * Math.sin(t * 0.02 + p.flickerPhase)`. -/
def flickerOf (m : JSMath) (t : ℚ) (p : Particle) : ℚ :=
  3/10 + (1/5) * m.sin (t * (1/50) + p.flickerPhase)

/-- The state effect of drawEmber (script.js line 33):
`p.size = p.baseSize * flicker`. -/
def applyFlicker (m : JSMath) (t : ℚ) (p : Particle) : Particle :=
  { p with size := p.baseSize * flickerOf m t p }

/-- Position advance of animateParticles (script.js lines 56–65):
`p.y -= p.speed`, then either the looping update (angle, drifting
baseX, x recomputed from the anchor) when `loopRadius > 0`, or the
plain drift `p.x += p.drift`. -/
def advance (m : JSMath) (p : Particle) : Particle :=
  let p1 := { p with y := p.y - p.speed }
  if 0 < p1.loopRadius then
    let a := p1.angle + p1.angularSpeed
    let bx := p1.baseX + p1.drift
    { p1 with angle := a, baseX := bx, x := bx + m.sin a * p1.loopRadius }
  else
    { p1 with x := p1.x + p1.drift }

/-- The loop-radius re-roll (script.js line 72):
`Math.random() < 0.4 ? Math.random() * 20 + 8 : 0`. -/
def rollLoopRadius (rLoop rRadius : ℚ) : ℚ :=
  if rLoop < 2/5 then rRadius * 20 + 8 else 0

/-- The respawn body (script.js lines 69–73), with `w`/`h` the canvas
width and height: reset y below the bottom edge, re-randomize baseX,
angle and loopRadius, recompute x from the fresh values. -/
def respawn (m : JSMath) (w h : ℚ) (r : RespawnRand) (p : Particle) : Particle :=
  let bx := r.rBaseX * w
  let a := r.rAngle * m.PI * 2
  let lr := rollLoopRadius r.rLoop r.rRadius
  { p with y := h + p.size, baseX := bx, angle := a, loopRadius := lr,
           x := bx + m.sin a * lr }

/-- The guarded respawn (script.js line 68): `if (p.y < -p.size) ...`. -/
def respawnCheck (m : JSMath) (w h : ℚ) (r : RespawnRand) (p : Particle) : Particle :=
  if p.y < -p.size then respawn m w h r p else p

/-- Horizontal wrap (script.js lines 77–78): two sequential guards,
`if (p.x < -10) p.x = canvas.width + 10` then
`if (p.x > canvas.width + 10) p.x = -10`. -/
def wrapX (w : ℚ) (p : Particle) : Particle :=
  let p1 := if p.x < -10 then { p with x := w + 10 } else p
  if w + 10 < p1.x then { p1 with x := -10 } else p1

/-- One whole per-frame update of a single particle, in the order of
the forEach body of animateParticles (script.js lines 52–79):
drawEmber flicker, position advance, respawn check, horizontal wrap. -/
def frameStep (m : JSMath) (t w h : ℚ) (r : RespawnRand) (p : Particle) : Particle :=
  wrapX w (respawnCheck m w h r (advance m (applyFlicker m t p)))

/-! The fragment shader of shader-smoke.js, embedded over ℚ with the
GLSL sin builtin abstracted by `JSMath.sin`.  A GLSL vec2 is a pair. -/

/-- A GLSL vec2. -/
abbrev Vec2 := ℚ × ℚ

/-- GLSL fract: `fract(x) = x - floor(x)`. -/
def fractq (x : ℚ) : ℚ := x - ⌊x⌋

/-- GLSL dot on vec2. -/
def dotv (p q : Vec2) : ℚ := p.1 * q.1 + p.2 * q.2

/-- GLSL mix (linear interpolation): `mix(x, y, a) = x*(1-a) + y*a`. -/
def mixq (x y a : ℚ) : ℚ := x * (1 - a) + y * a

/-- GLSL clamp to an interval. -/
def clampq (x lo hi : ℚ) : ℚ := min (max x lo) hi

/-- The Hermite curve `t*t*(3 - 2*t)` shared by the noise weights and
smoothstep. -/
def hermite (t : ℚ) : ℚ := t * t * (3 - 2 * t)

/-- GLSL smoothstep:
`t = clamp((x-e0)/(e1-e0), 0, 1); return t*t*(3-2*t)`. -/
def smoothstep (e0 e1 x : ℚ) : ℚ :=
  hermite (clampq ((x - e0) / (e1 - e0)) 0 1)

/-- The 2-D hash of shader-smoke.js lines 16–19:
`fract(sin(dot(p, vec2(1.0, 300.0))) * 43758.5453123)`. -/
def rand (m : JSMath) (p : Vec2) : ℚ :=
  fractq (m.sin (dotv p (1, 300)) * (437585453123/10000000))

/-- The value-noise function of shader-smoke.js lines 22–39: hash the
four corners of the integer cell, Hermite-smooth the fractional
offset, and combine with the rearranged bilinear expression
`mix(a,b,u.x) + (c-a)*u.y*(1-u.x) + (d-b)*u.x*u.y`. -/
def noise (m : JSMath) (p : Vec2) : ℚ :=
  let i1 : ℚ := ⌊p.1⌋
  let i2 : ℚ := ⌊p.2⌋
  let f1 := fractq p.1
  let f2 := fractq p.2
  let a := rand m (i1, i2)
  let b := rand m (i1 + 1, i2)
  let c := rand m (i1, i2 + 1)
  let d := rand m (i1 + 1, i2 + 1)
  let ux := hermite f1
  let uy := hermite f2
  mixq a b ux + (c - a) * uy * (1 - ux) + (d - b) * ux * uy

/-- The loop body state of fbm (shader-smoke.js lines 47–51), iterated
`n` more times: `value += amplitude * noise(p); p *= 2.0;
amplitude *= 0.4`. -/
def fbmGo (m : JSMath) : Nat → Vec2 → ℚ → ℚ → ℚ
  | 0, _, _, value => value
  | n + 1, p, amplitude, value =>
      fbmGo m n (p.1 * 2, p.2 * 2) (amplitude * (2/5)) (value + amplitude * noise m p)

/-- fbm (shader-smoke.js lines 43–53): OCTAVES = 5, starting amplitude
0.4, starting accumulator 0.0. -/
def fbm (m : JSMath) (p : Vec2) : ℚ := fbmGo m 5 p (2/5) 0

/-- The RGBA output of the fragment shader main. -/
structure FragOut where
  r : ℚ
  g : ℚ
  b : ℚ
  a : ℚ
deriving DecidableEq

/-- The aspect-ratio correction of main (shader-smoke.js line 60):
`p.x *= vp.x / vp.y`. -/
def aspectCorrect (vp uv : Vec2) : Vec2 := (uv.1 * (vp.1 / vp.2), uv.2)

/-- The baseSmoke scalar of main (shader-smoke.js lines 63–83).  All
three components of the GLSL vec3 are equal, so it is one rational:
gradient, the scrolled coordinate `fast`, the chained fbm samples
ns_a, ns_b, ins, the grey ramp c1, and the contrast term. -/
def baseSmokeOf (m : JSMath) (time : ℚ) (vp uv : Vec2) : ℚ :=
  let p := aspectCorrect vp uv
  let gradient := mixq (p.2 * (1/2) + 1/10) (p.2 * (1/10) + 9/10) (fbm m p)
  let speed : ℚ := 26/100
  let details : ℚ := 10
  let force : ℚ := 1/10
  let shift : ℚ := 1/5
  let fast : Vec2 := (p.1 * details, (p.2 - time * speed) * details)
  let ns_a := fbm m fast
  let ns_b := force * fbm m (fast.1 + ns_a + time, fast.2 + ns_a + time) - shift
  let ins := fbm m (ns_b, ns_a)
  let c1 := mixq (3/10) (9/10) (ins + shift)
  c1 + (ins - gradient)

/-- The height mask of main (shader-smoke.js line 86):
`smoothstep(0.5, 0.0, p.y)`. -/
def heightMaskOf (y : ℚ) : ℚ := smoothstep (1/2) 0 y

/-- The fragment shader main (shader-smoke.js lines 56–89):
`fragColor = vec4(baseSmoke * heightMask, heightMask)`.  The mask is
evaluated at `p.y = uv.y` (the aspect correction only rescales x). -/
def fragMain (m : JSMath) (time : ℚ) (vp uv : Vec2) : FragOut :=
  let s := baseSmokeOf m time vp uv
  let hm := heightMaskOf (aspectCorrect vp uv).2
  ⟨s * hm, s * hm, s * hm, hm⟩

/-! The setup path of the WebGLHandler class (shader-smoke.js lines
106–163).  The GL driver is abstracted as an oracle deciding, per
shader stage, whether compilation succeeds, and, per attached-stage
list, whether the program links; the info logs are oracle data.  The
observable effects tracked are the console error log, the deleted
shader objects, the shaders attached to the program, and whether the
render loop was started (render() self-reschedules unconditionally, so
draw calls are issued iff the loop was started). -/

/-- The two shader stages compiled by the constructor. -/
inductive ShaderKind
  | vertex
  | fragment
deriving DecidableEq

/-- The abstracted WebGL2 driver. -/
structure GLContext where
  compileOk : ShaderKind → Bool
  shaderLog : ShaderKind → String
  linkOk : List ShaderKind → Bool
  programLog : String

/-- Observable state of WebGLHandler setup. -/
structure SetupState where
  errorLog : List String
  deleted : List ShaderKind
  attached : List ShaderKind
  renderLoop : Bool
deriving DecidableEq

/-- WebGLHandler._compile (shader-smoke.js lines 136–146): create the
shader, compile it; on failure log the shader info log, delete the
shader and return; on success attach it to the program. -/
def compileShader (gl : GLContext) (k : ShaderKind) (st : SetupState) : SetupState :=
  if gl.compileOk k then
    { st with attached := st.attached ++ [k] }
  else
    { st with errorLog := st.errorLog ++ [gl.shaderLog k],
              deleted := st.deleted ++ [k] }

/-- The WebGLHandler constructor after context acquisition
(shader-smoke.js lines 114–132): compile the vertex then the fragment
stage, link the program, and on LINK_STATUS false log the program info
log and return before render() is ever called; otherwise start the
self-rescheduling render loop. -/
def setup (gl : GLContext) : SetupState :=
  let st1 := compileShader gl ShaderKind.vertex ⟨[], [], [], false⟩
  let st2 := compileShader gl ShaderKind.fragment st1
  if gl.linkOk st2.attached then
    { st2 with renderLoop := true }
  else
    { st2 with errorLog := st2.errorLog ++ [gl.programLog] }

/-- Number of gl.drawArrays calls issued after `frames` animation
frames: render() (shader-smoke.js lines 156–162) draws exactly once
per frame, and it runs iff the constructor reached the render loop. -/
def drawCallsAfter (st : SetupState) (frames : Nat) : Nat :=
  if st.renderLoop then frames else 0

/-- The particle state after drawEmber's flicker and the position
advance, just before the respawn check of the same frame. -/
def preRespawn (m : JSMath) (t : ℚ) (p : Particle) : Particle :=
  advance m (applyFlicker m t p)

/-- The particle state after the respawn check, just before the
horizontal wrap of the same frame. -/
def postRespawn (m : JSMath) (t w h : ℚ) (r : RespawnRand) (p : Particle) : Particle :=
  respawnCheck m w h r (preRespawn m t p)

/-! ### Concrete instances used for evaluation -/

/-- A concrete host math library with a constant-zero sine and a
rational stand-in for Math.PI, used to evaluate the model on closed
inputs. -/
def mZero : JSMath := ⟨fun _ => 0, 355/113⟩

/-- All-zero Math.random() draws. -/
def rZero : RespawnRand := ⟨0, 0, 0, 0⟩

/-- The spec scenario particle: speed 1.0, y 5, current radius 3,
loopRadius 0 (baseSize 10 so that the zero-sine flicker 0.3 keeps the
radius at 3). -/
def pScenarioA : Particle :=
  ⟨50, 50, 5, 10, 3, 1, 0, 0, 0, 0, 0⟩

/-- The same particle one frame before its y passes −3.0001: starting
from y = −2.0001, the next advance puts y at −3.0001. -/
def pScenarioB : Particle :=
  ⟨50, 50, -20001/10000, 10, 3, 1, 0, 0, 0, 0, 0⟩

/-- A particle with distinctive speed, drift, baseSize, flickerPhase
and angularSpeed, placed so that the respawn fires on the next frame. -/
def pSurvivor : Particle :=
  ⟨0, 0, -4, 10, 3, 7, 1/2, 1, 0, 2, 3⟩

/-- A looping particle (loopRadius 10 > 0). -/
def pLoop : Particle :=
  ⟨50, 50, 40, 10, 3, 1, 1/2, 0, 10, 0, 1/10⟩

/-- A GL driver on which both compilations and every link fail. -/
def glFail : GLContext :=
  ⟨fun _ => false, fun _ => "shader info log", fun _ => false, "program info log"⟩

/-! ### Helper lemmas -/

theorem fractq_eq_fract (x : ℚ) : fractq x = Int.fract x := rfl

theorem fractq_nonneg (x : ℚ) : 0 ≤ fractq x := by
  rw [fractq_eq_fract]; exact Int.fract_nonneg x

theorem fractq_lt_one (x : ℚ) : fractq x < 1 := by
  rw [fractq_eq_fract]; exact Int.fract_lt_one x

theorem rand_mem (m : JSMath) (p : Vec2) : 0 ≤ rand m p ∧ rand m p < 1 :=
  ⟨fractq_nonneg _, fractq_lt_one _⟩

theorem hermite_mem (t : ℚ) (h0 : 0 ≤ t) (h1 : t ≤ 1) :
    0 ≤ hermite t ∧ hermite t ≤ 1 := by
  constructor
  · unfold hermite; nlinarith
  · unfold hermite; nlinarith [sq_nonneg (1 - t)]

theorem hermite_mono (t1 t2 : ℚ) (h0 : 0 ≤ t1) (h12 : t1 ≤ t2) (h1 : t2 ≤ 1) :
    hermite t1 ≤ hermite t2 := by
  unfold hermite
  nlinarith [sq_nonneg (t2 - t1),
    mul_nonneg (mul_nonneg (sub_nonneg.mpr h12) h0) (sub_nonneg.mpr (le_trans h12 h1)),
    mul_nonneg (mul_nonneg (sub_nonneg.mpr h12) h0) (sub_nonneg.mpr h1),
    mul_nonneg (mul_nonneg (sub_nonneg.mpr h12) (le_trans h0 h12)) (sub_nonneg.mpr h1)]

theorem mixq_mem (x y a : ℚ) (hx0 : 0 ≤ x) (hx1 : x ≤ 1) (hy0 : 0 ≤ y) (hy1 : y ≤ 1)
    (ha0 : 0 ≤ a) (ha1 : a ≤ 1) : 0 ≤ mixq x y a ∧ mixq x y a ≤ 1 := by
  unfold mixq
  constructor
  · nlinarith
  · nlinarith

theorem mix_rearrange (a b c d ux uy : ℚ) :
    mixq a b ux + (c - a) * uy * (1 - ux) + (d - b) * ux * uy
      = mixq (mixq a b ux) (mixq c d ux) uy := by
  unfold mixq; ring

theorem noise_eq_bilinear (m : JSMath) (p : Vec2) :
    noise m p
      = mixq
          (mixq (rand m ((⌊p.1⌋ : ℚ), (⌊p.2⌋ : ℚ)))
                (rand m ((⌊p.1⌋ : ℚ) + 1, (⌊p.2⌋ : ℚ)))
                (hermite (fractq p.1)))
          (mixq (rand m ((⌊p.1⌋ : ℚ), (⌊p.2⌋ : ℚ) + 1))
                (rand m ((⌊p.1⌋ : ℚ) + 1, (⌊p.2⌋ : ℚ) + 1))
                (hermite (fractq p.1)))
          (hermite (fractq p.2)) := by
  unfold noise
  rw [mix_rearrange]

theorem noise_mem (m : JSMath) (p : Vec2) : 0 ≤ noise m p ∧ noise m p ≤ 1 := by
  rw [noise_eq_bilinear]
  have hu1 := hermite_mem (fractq p.1) (fractq_nonneg _) (le_of_lt (fractq_lt_one _))
  have hu2 := hermite_mem (fractq p.2) (fractq_nonneg _) (le_of_lt (fractq_lt_one _))
  have ha := rand_mem m ((⌊p.1⌋ : ℚ), (⌊p.2⌋ : ℚ))
  have hb := rand_mem m ((⌊p.1⌋ : ℚ) + 1, (⌊p.2⌋ : ℚ))
  have hc := rand_mem m ((⌊p.1⌋ : ℚ), (⌊p.2⌋ : ℚ) + 1)
  have hd := rand_mem m ((⌊p.1⌋ : ℚ) + 1, (⌊p.2⌋ : ℚ) + 1)
  have hab := mixq_mem _ _ _ ha.1 (le_of_lt ha.2) hb.1 (le_of_lt hb.2) hu1.1 hu1.2
  have hcd := mixq_mem _ _ _ hc.1 (le_of_lt hc.2) hd.1 (le_of_lt hd.2) hu1.1 hu1.2
  exact mixq_mem _ _ _ hab.1 hab.2 hcd.1 hcd.2 hu2.1 hu2.2

theorem fbm_unfolded (m : JSMath) (p : Vec2) :
    fbm m p
      = 0 + (2/5) * noise m p
          + (2/5 * (2/5)) * noise m (p.1 * 2, p.2 * 2)
          + (2/5 * (2/5) * (2/5)) * noise m ((p.1 * 2) * 2, (p.2 * 2) * 2)
          + (2/5 * (2/5) * (2/5) * (2/5)) * noise m (((p.1 * 2) * 2) * 2, ((p.2 * 2) * 2) * 2)
          + (2/5 * (2/5) * (2/5) * (2/5) * (2/5))
              * noise m ((((p.1 * 2) * 2) * 2) * 2, (((p.2 * 2) * 2) * 2) * 2) := rfl

theorem fbm_eq_five_octaves (m : JSMath) (p : Vec2) :
    fbm m p
      = (2/5) * noise m p
        + (4/25) * noise m (p.1 * 2, p.2 * 2)
        + (8/125) * noise m (p.1 * 4, p.2 * 4)
        + (16/625) * noise m (p.1 * 8, p.2 * 8)
        + (32/3125) * noise m (p.1 * 16, p.2 * 16) := by
  rw [fbm_unfolded]
  have e3a : ((p.1 * 2) * 2 : ℚ) = p.1 * 4 := by ring
  have e3b : ((p.2 * 2) * 2 : ℚ) = p.2 * 4 := by ring
  rw [e3a, e3b]
  have e4a : ((p.1 * 4) * 2 : ℚ) = p.1 * 8 := by ring
  have e4b : ((p.2 * 4) * 2 : ℚ) = p.2 * 8 := by ring
  rw [e4a, e4b]
  have e5a : ((p.1 * 8) * 2 : ℚ) = p.1 * 16 := by ring
  have e5b : ((p.2 * 8) * 2 : ℚ) = p.2 * 16 := by ring
  rw [e5a, e5b]
  norm_num

theorem clampq_mem (x : ℚ) : 0 ≤ clampq x 0 1 ∧ clampq x 0 1 ≤ 1 :=
  ⟨le_min (le_max_right x 0) zero_le_one, min_le_right _ _⟩

theorem clampq_mono (x y : ℚ) (h : x ≤ y) : clampq x 0 1 ≤ clampq y 0 1 :=
  min_le_min (max_le_max h le_rfl) le_rfl

theorem smoothstep_half_arg (y : ℚ) :
    smoothstep (1/2) 0 y = hermite (clampq (1 - 2 * y) 0 1) := by
  unfold smoothstep
  have : ((y - 1/2) / (0 - 1/2) : ℚ) = 1 - 2 * y := by
    norm_num
    ring
  rw [this]

theorem heightMask_anti (y1 y2 : ℚ) (h : y1 ≤ y2) :
    heightMaskOf y2 ≤ heightMaskOf y1 := by
  unfold heightMaskOf
  rw [smoothstep_half_arg, smoothstep_half_arg]
  have hc : clampq (1 - 2 * y2) 0 1 ≤ clampq (1 - 2 * y1) 0 1 :=
    clampq_mono _ _ (by linarith)
  exact hermite_mono _ _ (clampq_mem _).1 hc (clampq_mem _).2

theorem heightMask_zero_of_half_le (y : ℚ) (h : 1/2 ≤ y) : heightMaskOf y = 0 := by
  unfold heightMaskOf
  rw [smoothstep_half_arg]
  have hc : clampq (1 - 2 * y) 0 1 = 0 := by
    unfold clampq
    have : max (1 - 2 * y) 0 = 0 := max_eq_right (by linarith)
    rw [this]
    exact min_eq_left zero_le_one
  rw [hc]
  unfold hermite
  ring

theorem heightMask_at_bottom : heightMaskOf 0 = 1 := by
  unfold heightMaskOf
  rw [smoothstep_half_arg]
  norm_num [clampq, hermite]

theorem advance_fields (m : JSMath) (p : Particle) :
    (advance m p).y = p.y - p.speed
    ∧ (advance m p).size = p.size
    ∧ (advance m p).baseSize = p.baseSize
    ∧ (advance m p).speed = p.speed
    ∧ (advance m p).drift = p.drift
    ∧ (advance m p).flickerPhase = p.flickerPhase
    ∧ (advance m p).loopRadius = p.loopRadius
    ∧ (advance m p).angularSpeed = p.angularSpeed := by
  simp only [advance]
  split <;> simp

theorem applyFlicker_fields (m : JSMath) (t : ℚ) (p : Particle) :
    (applyFlicker m t p).size = p.baseSize * flickerOf m t p
    ∧ (applyFlicker m t p).y = p.y
    ∧ (applyFlicker m t p).x = p.x
    ∧ (applyFlicker m t p).baseX = p.baseX
    ∧ (applyFlicker m t p).baseSize = p.baseSize
    ∧ (applyFlicker m t p).speed = p.speed
    ∧ (applyFlicker m t p).drift = p.drift
    ∧ (applyFlicker m t p).flickerPhase = p.flickerPhase
    ∧ (applyFlicker m t p).loopRadius = p.loopRadius
    ∧ (applyFlicker m t p).angle = p.angle
    ∧ (applyFlicker m t p).angularSpeed = p.angularSpeed :=
  ⟨rfl, rfl, rfl, rfl, rfl, rfl, rfl, rfl, rfl, rfl, rfl⟩

theorem preRespawn_fields (m : JSMath) (t : ℚ) (p : Particle) :
    (preRespawn m t p).y = p.y - p.speed
    ∧ (preRespawn m t p).size = p.baseSize * flickerOf m t p
    ∧ (preRespawn m t p).baseSize = p.baseSize
    ∧ (preRespawn m t p).speed = p.speed
    ∧ (preRespawn m t p).drift = p.drift
    ∧ (preRespawn m t p).flickerPhase = p.flickerPhase
    ∧ (preRespawn m t p).loopRadius = p.loopRadius
    ∧ (preRespawn m t p).angularSpeed = p.angularSpeed := by
  unfold preRespawn
  have ha := advance_fields m (applyFlicker m t p)
  have hf := applyFlicker_fields m t p
  exact ⟨by rw [ha.1, hf.2.1, hf.2.2.2.2.2.1],
         by rw [ha.2.1, hf.1],
         by rw [ha.2.2.1, hf.2.2.2.2.1],
         by rw [ha.2.2.2.1, hf.2.2.2.2.2.1],
         by rw [ha.2.2.2.2.1, hf.2.2.2.2.2.2.1],
         by rw [ha.2.2.2.2.2.1, hf.2.2.2.2.2.2.2.1],
         by rw [ha.2.2.2.2.2.2.1, hf.2.2.2.2.2.2.2.2.1],
         by rw [ha.2.2.2.2.2.2.2, hf.2.2.2.2.2.2.2.2.2.2]⟩

theorem respawn_fields (m : JSMath) (w h : ℚ) (r : RespawnRand) (p : Particle) :
    (respawn m w h r p).y = h + p.size
    ∧ (respawn m w h r p).baseX = r.rBaseX * w
    ∧ (respawn m w h r p).angle = r.rAngle * m.PI * 2
    ∧ (respawn m w h r p).loopRadius = rollLoopRadius r.rLoop r.rRadius
    ∧ (respawn m w h r p).x
        = r.rBaseX * w + m.sin (r.rAngle * m.PI * 2) * rollLoopRadius r.rLoop r.rRadius
    ∧ (respawn m w h r p).size = p.size
    ∧ (respawn m w h r p).baseSize = p.baseSize
    ∧ (respawn m w h r p).speed = p.speed
    ∧ (respawn m w h r p).drift = p.drift
    ∧ (respawn m w h r p).flickerPhase = p.flickerPhase
    ∧ (respawn m w h r p).angularSpeed = p.angularSpeed :=
  ⟨rfl, rfl, rfl, rfl, rfl, rfl, rfl, rfl, rfl, rfl, rfl⟩

theorem respawnCheck_pos (m : JSMath) (w h : ℚ) (r : RespawnRand) (p : Particle)
    (hf : p.y < -p.size) : respawnCheck m w h r p = respawn m w h r p := by
  unfold respawnCheck
  rw [if_pos hf]

theorem respawnCheck_neg (m : JSMath) (w h : ℚ) (r : RespawnRand) (p : Particle)
    (hf : ¬ p.y < -p.size) : respawnCheck m w h r p = p := by
  unfold respawnCheck
  rw [if_neg hf]

theorem wrapX_low (w : ℚ) (p : Particle) (hx : p.x < -10) :
    wrapX w p = { p with x := w + 10 } := by
  unfold wrapX
  rw [if_pos hx]
  have hno : ¬ (w + 10 < ({ p with x := w + 10 } : Particle).x) := by simp
  rw [if_neg hno]

theorem wrapX_high (w : ℚ) (p : Particle) (hw : 0 ≤ w) (hx : w + 10 < p.x) :
    wrapX w p = { p with x := -10 } := by
  unfold wrapX
  have hno : ¬ (p.x < -10) := by push_neg; linarith
  rw [if_neg hno, if_pos hx]

theorem wrapX_id (w : ℚ) (p : Particle) (hlo : -10 ≤ p.x) (hhi : p.x ≤ w + 10) :
    wrapX w p = p := by
  unfold wrapX
  rw [if_neg (not_lt.mpr hlo), if_neg (not_lt.mpr hhi)]

theorem wrapX_x_mem (w : ℚ) (p : Particle) (hw : 0 ≤ w) :
    -10 ≤ (wrapX w p).x ∧ (wrapX w p).x ≤ w + 10 := by
  by_cases h1 : p.x < -10
  · rw [wrapX_low w p h1]
    constructor <;> simp <;> linarith
  · by_cases h2 : w + 10 < p.x
    · rw [wrapX_high w p hw h2]
      constructor <;> simp <;> linarith
    · rw [wrapX_id w p (not_lt.mp h1) (not_lt.mp h2)]
      exact ⟨not_lt.mp h1, not_lt.mp h2⟩

theorem wrapX_fields (w : ℚ) (p : Particle) :
    (wrapX w p).baseX = p.baseX ∧ (wrapX w p).y = p.y ∧ (wrapX w p).baseSize = p.baseSize
    ∧ (wrapX w p).size = p.size ∧ (wrapX w p).speed = p.speed ∧ (wrapX w p).drift = p.drift
    ∧ (wrapX w p).flickerPhase = p.flickerPhase ∧ (wrapX w p).loopRadius = p.loopRadius
    ∧ (wrapX w p).angle = p.angle ∧ (wrapX w p).angularSpeed = p.angularSpeed := by
  simp only [wrapX]
  split <;> split <;> simp

theorem flickerOf_mem (m : JSMath) (t : ℚ) (p : Particle)
    (hsin : ∀ z : ℚ, -1 ≤ m.sin z ∧ m.sin z ≤ 1) :
    1/10 ≤ flickerOf m t p ∧ flickerOf m t p ≤ 1/2 := by
  unfold flickerOf
  have hz := hsin (t * (1/50) + p.flickerPhase)
  constructor <;> linarith [hz.1, hz.2]

theorem rollLoopRadius_mem (rLoop rRadius : ℚ) (h0 : 0 ≤ rRadius) (h1 : rRadius < 1) :
    rollLoopRadius rLoop rRadius = 0
    ∨ (8 ≤ rollLoopRadius rLoop rRadius ∧ rollLoopRadius rLoop rRadius < 28) := by
  unfold rollLoopRadius
  split
  · right; constructor <;> linarith
  · left; rfl

theorem frameStep_eq (m : JSMath) (t w h : ℚ) (r : RespawnRand) (p : Particle) :
    frameStep m t w h r p = wrapX w (postRespawn m t w h r p) := rfl

theorem advance_loop (m : JSMath) (p : Particle) (hlr : 0 < p.loopRadius) :
    advance m p
      = { p with y := p.y - p.speed, angle := p.angle + p.angularSpeed,
                 baseX := p.baseX + p.drift,
                 x := p.baseX + p.drift
                      + m.sin (p.angle + p.angularSpeed) * p.loopRadius } := by
  simp only [advance]
  split
  · rfl
  · next hno => exact absurd hlr (by simpa using hno)

/-! ### Claim theorems -/

/-- C7: For every input coordinate pair, the pseudo-random hash
`rand(p) = fract(sin(dot(p, (1.0, 300.0))) * 43758.5453123)` is
deterministic — identical inputs always yield identical outputs — and
its output lies in [0, 1). -/
theorem rand_deterministic_in_unit (m : JSMath) (p q : Vec2) (hpq : p = q) :
    rand m p = rand m q ∧ 0 ≤ rand m p ∧ rand m p < 1 := by
  subst hpq
  exact ⟨rfl, (rand_mem m p).1, (rand_mem m p).2⟩

theorem rand_deterministic_in_unit_witness :
    rand mZero (1, 2) = rand mZero (1, 2)
    ∧ 0 ≤ rand mZero (1, 2) ∧ rand mZero (1, 2) < 1 :=
  rand_deterministic_in_unit mZero (1, 2) (1, 2) rfl

/-- C6: For all corner values a, b, c, d and weights ux, uy in [0,1],
the rearranged interpolation of the noise function,
`mix(a,b,ux) + (c-a)*uy*(1-ux) + (d-b)*ux*uy`, equals the reference
bilinear interpolation `mix(mix(a,b,ux), mix(c,d,ux), uy)`; with the
Hermite weights applied to the fractional offset and the corner
hashes in [0,1], noise(p) lies in [0,1]. -/
theorem noise_bilinear_equiv_and_range (m : JSMath) (a b c d ux uy : ℚ) (p : Vec2)
    (hux0 : 0 ≤ ux) (hux1 : ux ≤ 1) (huy0 : 0 ≤ uy) (huy1 : uy ≤ 1) :
    (mixq a b ux + (c - a) * uy * (1 - ux) + (d - b) * ux * uy
        = mixq (mixq a b ux) (mixq c d ux) uy)
    ∧ (0 ≤ noise m p ∧ noise m p ≤ 1) :=
  ⟨mix_rearrange a b c d ux uy, noise_mem m p⟩

theorem noise_bilinear_equiv_and_range_witness :
    (mixq 1 2 (1/2) + (3 - 1) * (1/3) * (1 - 1/2) + (4 - 2) * (1/2) * (1/3)
        = mixq (mixq 1 2 (1/2)) (mixq 3 4 (1/2)) (1/3))
    ∧ (0 ≤ noise mZero (0, 0) ∧ noise mZero (0, 0) ≤ 1) :=
  noise_bilinear_equiv_and_range mZero 1 2 3 4 (1/2) (1/3) (0, 0)
    (by norm_num) (by norm_num) (by norm_num) (by norm_num)

/-- C5: Given that the noise function returns values in [0,1], fbm(p)
is non-negative and bounded by the 5-term geometric series
0.4 + 0.16 + 0.064 + 0.0256 + 0.01024 = 0.65984; fbm accumulates
exactly 5 octaves, doubling the coordinate and multiplying the
amplitude by 0.4 after each octave. -/
theorem fbm_five_octaves_bounded (m : JSMath) (p : Vec2)
    (hn : ∀ q : Vec2, 0 ≤ noise m q ∧ noise m q ≤ 1) :
    fbm m p
      = (2/5) * noise m p
        + (4/25) * noise m (p.1 * 2, p.2 * 2)
        + (8/125) * noise m (p.1 * 4, p.2 * 4)
        + (16/625) * noise m (p.1 * 8, p.2 * 8)
        + (32/3125) * noise m (p.1 * 16, p.2 * 16)
    ∧ 0 ≤ fbm m p ∧ fbm m p ≤ 65984/100000 := by
  have h1 := hn p
  have h2 := hn (p.1 * 2, p.2 * 2)
  have h3 := hn (p.1 * 4, p.2 * 4)
  have h4 := hn (p.1 * 8, p.2 * 8)
  have h5 := hn (p.1 * 16, p.2 * 16)
  refine ⟨fbm_eq_five_octaves m p, ?_, ?_⟩
  · rw [fbm_eq_five_octaves m p]
    linarith [h1.1, h2.1, h3.1, h4.1, h5.1]
  · rw [fbm_eq_five_octaves m p]
    linarith [h1.2, h2.2, h3.2, h4.2, h5.2]

theorem fbm_five_octaves_bounded_witness :
    0 ≤ fbm mZero (0, 0) ∧ fbm mZero (0, 0) ≤ 65984/100000 :=
  (fbm_five_octaves_bounded mZero (0, 0) (fun q => noise_mem mZero q)).2

/-- C9: For every time t and particle, the flicker scalar
`0.3 + 0.2 * sin(0.02*t + flickerPhase)` lies in [0.1, 0.5] — in
particular it is strictly positive — and drawEmber sets the current
radius to base radius × flicker, so the current radius is strictly
positive and at most half the base radius. -/
theorem flicker_positive_size (m : JSMath) (t : ℚ) (p : Particle)
    (hsin : ∀ z : ℚ, -1 ≤ m.sin z ∧ m.sin z ≤ 1) (hbs : 0 < p.baseSize) :
    (1/10 ≤ flickerOf m t p ∧ flickerOf m t p ≤ 1/2)
    ∧ 0 < flickerOf m t p
    ∧ (applyFlicker m t p).size = p.baseSize * flickerOf m t p
    ∧ 0 < (applyFlicker m t p).size
    ∧ (applyFlicker m t p).size ≤ p.baseSize / 2 := by
  have hf := flickerOf_mem m t p hsin
  have hsz := (applyFlicker_fields m t p).1
  refine ⟨hf, by linarith [hf.1], hsz, ?_, ?_⟩
  · rw [hsz]
    exact mul_pos hbs (by linarith [hf.1])
  · rw [hsz]
    nlinarith [mul_le_mul_of_nonneg_left hf.2 (le_of_lt hbs)]

theorem flicker_positive_size_witness :
    (1/10 ≤ flickerOf mZero 0 pScenarioA ∧ flickerOf mZero 0 pScenarioA ≤ 1/2)
    ∧ 0 < (applyFlicker mZero 0 pScenarioA).size
    ∧ (applyFlicker mZero 0 pScenarioA).size ≤ pScenarioA.baseSize / 2 := by
  have hth := flicker_positive_size mZero 0 pScenarioA
      (by intro z; constructor <;> norm_num [mZero])
      (by norm_num [pScenarioA])
  exact ⟨hth.1, hth.2.2.2.1, hth.2.2.2.2⟩

/-- C8: For every pixel, the fragment output alpha equals the height
mask smoothstep(0.5, 0.0, p.y), which is 1 at the bottom edge,
monotonically non-increasing in p.y, and exactly 0 for p.y ≥ 0.5; the
output RGB equals baseSmoke times the same mask, so the fragment is
fully transparent (alpha 0, color 0) above the vertical midpoint. -/
theorem fragment_height_mask (m : JSMath) (time : ℚ) (vp uv : Vec2) (y1 y2 : ℚ)
    (h12 : y1 ≤ y2) :
    (fragMain m time vp uv).a = smoothstep (1/2) 0 uv.2
    ∧ (fragMain m time vp uv).r = baseSmokeOf m time vp uv * (fragMain m time vp uv).a
    ∧ (fragMain m time vp uv).g = (fragMain m time vp uv).r
    ∧ (fragMain m time vp uv).b = (fragMain m time vp uv).r
    ∧ (fragMain m time vp (uv.1, 0)).a = 1
    ∧ (fragMain m time vp (uv.1, y2)).a ≤ (fragMain m time vp (uv.1, y1)).a
    ∧ (1/2 ≤ uv.2 →
        (fragMain m time vp uv).a = 0 ∧ (fragMain m time vp uv).r = 0
        ∧ (fragMain m time vp uv).g = 0 ∧ (fragMain m time vp uv).b = 0) := by
  have halpha : ∀ w : Vec2, (fragMain m time vp w).a = heightMaskOf w.2 := fun _ => rfl
  refine ⟨rfl, rfl, rfl, rfl, ?_, ?_, ?_⟩
  · rw [halpha (uv.1, 0)]
    exact heightMask_at_bottom
  · rw [halpha (uv.1, y2), halpha (uv.1, y1)]
    exact heightMask_anti y1 y2 h12
  · intro hy
    have hm : heightMaskOf uv.2 = 0 := heightMask_zero_of_half_le uv.2 hy
    have har : (fragMain m time vp uv).r = baseSmokeOf m time vp uv * heightMaskOf uv.2 :=
      rfl
    refine ⟨by rw [halpha uv, hm], ?_, ?_, ?_⟩
    · rw [har, hm, mul_zero]
    · rw [show (fragMain m time vp uv).g = (fragMain m time vp uv).r from rfl,
          har, hm, mul_zero]
    · rw [show (fragMain m time vp uv).b = (fragMain m time vp uv).r from rfl,
          har, hm, mul_zero]

theorem fragment_height_mask_witness :
    (fragMain mZero 0 (16, 9) ((0 : ℚ), (3/4 : ℚ))).a = 0
    ∧ (fragMain mZero 0 (16, 9) ((0 : ℚ), (3/4 : ℚ))).r = 0
    ∧ (fragMain mZero 0 (16, 9) ((0 : ℚ), (0 : ℚ))).a = 1
    ∧ (fragMain mZero 0 (16, 9) ((0 : ℚ), (1 : ℚ))).a
        ≤ (fragMain mZero 0 (16, 9) ((0 : ℚ), (0 : ℚ))).a := by
  have hth := fragment_height_mask mZero 0 (16, 9) ((0 : ℚ), (3/4 : ℚ)) 0 1 (by norm_num)
  have hz := hth.2.2.2.2.2.2 (by norm_num)
  exact ⟨hz.1, hz.2.1, hth.2.2.2.2.1, hth.2.2.2.2.2.1⟩

/-- C1: The vertical respawn branch fires exactly when, after the
position advance, y < −size (the current flicker-modulated radius);
when it fires, y is reset to surface height + size (hence at least the
surface height), baseX is re-randomized over [0, width), the angle is
re-randomized in [0, 2π), the loop radius is re-rolled to 0 or a value
in [8, 28), and x is recomputed as baseX + sin(angle) × loopRadius. -/
theorem respawn_trigger_and_reinit (m : JSMath) (t w h : ℚ) (r : RespawnRand)
    (p : Particle)
    (hsin : ∀ z : ℚ, -1 ≤ m.sin z ∧ m.sin z ≤ 1) (hbs : 0 ≤ p.baseSize)
    (hw : 0 < w) (hPI : 0 < m.PI)
    (hb0 : 0 ≤ r.rBaseX) (hb1 : r.rBaseX < 1)
    (ha0 : 0 ≤ r.rAngle) (ha1 : r.rAngle < 1)
    (hl0 : 0 ≤ r.rRadius) (hl1 : r.rRadius < 1) :
    (frameStep m t w h r p).y = (postRespawn m t w h r p).y
    ∧ ((preRespawn m t p).y < -(preRespawn m t p).size →
        (postRespawn m t w h r p).y = h + (preRespawn m t p).size
        ∧ h ≤ (frameStep m t w h r p).y
        ∧ (postRespawn m t w h r p).baseX = r.rBaseX * w
        ∧ 0 ≤ (postRespawn m t w h r p).baseX
        ∧ (postRespawn m t w h r p).baseX < w
        ∧ (postRespawn m t w h r p).angle = r.rAngle * m.PI * 2
        ∧ 0 ≤ (postRespawn m t w h r p).angle
        ∧ (postRespawn m t w h r p).angle < 2 * m.PI
        ∧ ((postRespawn m t w h r p).loopRadius = 0
            ∨ (8 ≤ (postRespawn m t w h r p).loopRadius
               ∧ (postRespawn m t w h r p).loopRadius < 28))
        ∧ (postRespawn m t w h r p).x
            = (postRespawn m t w h r p).baseX
              + m.sin (postRespawn m t w h r p).angle
                  * (postRespawn m t w h r p).loopRadius)
    ∧ (¬ (preRespawn m t p).y < -(preRespawn m t p).size →
        postRespawn m t w h r p = preRespawn m t p) := by
  have hy : (frameStep m t w h r p).y = (postRespawn m t w h r p).y := by
    rw [frameStep_eq]
    exact (wrapX_fields w (postRespawn m t w h r p)).2.1
  refine ⟨hy, ?_, ?_⟩
  · intro hfire
    have hpost : postRespawn m t w h r p = respawn m w h r (preRespawn m t p) :=
      respawnCheck_pos m w h r (preRespawn m t p) hfire
    have hrf := respawn_fields m w h r (preRespawn m t p)
    have hqsize : (preRespawn m t p).size = p.baseSize * flickerOf m t p :=
      (preRespawn_fields m t p).2.1
    have hflick := flickerOf_mem m t p hsin
    have hsz : 0 ≤ (preRespawn m t p).size := by
      rw [hqsize]
      exact mul_nonneg hbs (by linarith [hflick.1])
    refine ⟨by rw [hpost]; exact hrf.1,
            by rw [hy, hpost, hrf.1]; linarith,
            by rw [hpost]; exact hrf.2.1,
            by rw [hpost, hrf.2.1]; exact mul_nonneg hb0 (le_of_lt hw),
            by rw [hpost, hrf.2.1]; exact (mul_lt_iff_lt_one_left hw).mpr hb1,
            by rw [hpost]; exact hrf.2.2.1,
            ?_, ?_, ?_, ?_⟩
    · rw [hpost, hrf.2.2.1]
      exact mul_nonneg (mul_nonneg ha0 (le_of_lt hPI)) (by norm_num)
    · rw [hpost, hrf.2.2.1]
      nlinarith [mul_pos (sub_pos.mpr ha1) hPI]
    · rw [hpost, hrf.2.2.2.1]
      exact rollLoopRadius_mem r.rLoop r.rRadius hl0 hl1
    · rw [hpost, hrf.2.2.2.2.1, hrf.2.1, hrf.2.2.1, hrf.2.2.2.1]
  · intro hno
    exact respawnCheck_neg m w h r (preRespawn m t p) hno

theorem respawn_trigger_and_reinit_witness :
    (frameStep mZero 0 100 200 rZero pScenarioA).y = 4
    ∧ (preRespawn mZero 0 pScenarioB).y = -(30001/10000)
    ∧ (frameStep mZero 0 100 200 rZero pScenarioB).y = 203
    ∧ (postRespawn mZero 0 100 200 rZero pScenarioB).y
        = 200 + (preRespawn mZero 0 pScenarioB).size
    ∧ 200 ≤ (frameStep mZero 0 100 200 rZero pScenarioB).y := by
  have hth := respawn_trigger_and_reinit mZero 0 100 200 rZero pScenarioB
      (by intro z; constructor <;> norm_num [mZero])
      (by norm_num [pScenarioB])
      (by norm_num)
      (by norm_num [mZero])
      (by norm_num [rZero]) (by norm_num [rZero])
      (by norm_num [rZero]) (by norm_num [rZero])
      (by norm_num [rZero]) (by norm_num [rZero])
  have hfire : (preRespawn mZero 0 pScenarioB).y < -(preRespawn mZero 0 pScenarioB).size := by
    norm_num [preRespawn, advance, applyFlicker, flickerOf, mZero, pScenarioB]
  have hf := hth.2.1 hfire
  refine ⟨?_, ?_, ?_, hf.1, hf.2.1⟩
  · norm_num [frameStep, wrapX, respawnCheck, respawn, advance, applyFlicker, flickerOf,
      rollLoopRadius, mZero, rZero, pScenarioA]
  · norm_num [preRespawn, advance, applyFlicker, flickerOf, mZero, pScenarioB]
  · norm_num [frameStep, wrapX, respawnCheck, respawn, advance, applyFlicker, flickerOf,
      rollLoopRadius, mZero, rZero, pScenarioB]

/-- C3: After any single per-frame update (including one in which the
respawn fires), x lies in [−10, width+10]; the horizontal wrap fires
exactly when x < −10 or x > width+10 after the move, sets x to the
opposite edge, and changes no other field. -/
theorem wrap_margin_invariant (m : JSMath) (t w h : ℚ) (r : RespawnRand) (p : Particle)
    (hw : 0 ≤ w) :
    (-10 ≤ (frameStep m t w h r p).x ∧ (frameStep m t w h r p).x ≤ w + 10)
    ∧ ((postRespawn m t w h r p).x < -10 →
        frameStep m t w h r p = { postRespawn m t w h r p with x := w + 10 })
    ∧ (w + 10 < (postRespawn m t w h r p).x →
        frameStep m t w h r p = { postRespawn m t w h r p with x := -10 })
    ∧ (-10 ≤ (postRespawn m t w h r p).x → (postRespawn m t w h r p).x ≤ w + 10 →
        frameStep m t w h r p = postRespawn m t w h r p) := by
  refine ⟨?_, ?_, ?_, ?_⟩
  · rw [frameStep_eq]
    exact wrapX_x_mem w _ hw
  · intro hx
    rw [frameStep_eq]
    exact wrapX_low w _ hx
  · intro hx
    rw [frameStep_eq]
    exact wrapX_high w _ hw hx
  · intro h1 h2
    rw [frameStep_eq]
    exact wrapX_id w _ h1 h2

theorem wrap_margin_invariant_witness :
    -10 ≤ (frameStep mZero 0 100 200 rZero pScenarioA).x
    ∧ (frameStep mZero 0 100 200 rZero pScenarioA).x ≤ 100 + 10 :=
  (wrap_margin_invariant mZero 0 100 200 rZero pScenarioA (by norm_num)).1

/-- C10: The horizontal wrap assigns only x and leaves every other
field (baseX included) unchanged; consequently, for a particle with
loopRadius > 0, the next update step recomputes x from the drifting
anchor, so the whole next-frame state is independent of the wrapped x. -/
theorem wrap_affects_only_x (m : JSMath) (t w h : ℚ) (r : RespawnRand) (p : Particle)
    (x1 x2 : ℚ) (hlr : 0 < p.loopRadius) :
    ((wrapX w p).baseX = p.baseX ∧ (wrapX w p).y = p.y
      ∧ (wrapX w p).baseSize = p.baseSize ∧ (wrapX w p).size = p.size
      ∧ (wrapX w p).speed = p.speed ∧ (wrapX w p).drift = p.drift
      ∧ (wrapX w p).flickerPhase = p.flickerPhase
      ∧ (wrapX w p).loopRadius = p.loopRadius
      ∧ (wrapX w p).angle = p.angle ∧ (wrapX w p).angularSpeed = p.angularSpeed)
    ∧ frameStep m t w h r { p with x := x1 } = frameStep m t w h r { p with x := x2 } := by
  refine ⟨wrapX_fields w p, ?_⟩
  have key : preRespawn m t { p with x := x1 } = preRespawn m t { p with x := x2 } := by
    have hl1 : 0 < (applyFlicker m t { p with x := x1 }).loopRadius := hlr
    have hl2 : 0 < (applyFlicker m t { p with x := x2 }).loopRadius := hlr
    unfold preRespawn
    rw [advance_loop m _ hl1, advance_loop m _ hl2]
    simp [applyFlicker, flickerOf]
  rw [frameStep_eq, frameStep_eq]
  unfold postRespawn
  rw [key]

theorem wrap_affects_only_x_witness :
    (wrapX 100 pLoop).baseX = pLoop.baseX
    ∧ frameStep mZero 0 100 200 rZero { pLoop with x := 5 }
        = frameStep mZero 0 100 200 rZero { pLoop with x := 7 } := by
  have hth := wrap_affects_only_x mZero 0 100 200 rZero pLoop 5 7 (by norm_num [pLoop])
  exact ⟨hth.1.1, hth.2⟩

/-- C2 counterexample: on a concrete particle whose respawn fires,
the rise speed, horizontal drift, base radius, flicker phase and
angular speed all survive the respawn unchanged — the respawn is not a
reinitialization of every attribute. -/
theorem respawn_not_full_reinit_cex :
    (preRespawn mZero 0 pSurvivor).y < -(preRespawn mZero 0 pSurvivor).size
    ∧ pSurvivor.speed = 7
    ∧ (frameStep mZero 0 100 200 rZero pSurvivor).speed = 7
    ∧ pSurvivor.drift = 1/2
    ∧ (frameStep mZero 0 100 200 rZero pSurvivor).drift = 1/2
    ∧ pSurvivor.baseSize = 10
    ∧ (frameStep mZero 0 100 200 rZero pSurvivor).baseSize = 10
    ∧ pSurvivor.flickerPhase = 1
    ∧ (frameStep mZero 0 100 200 rZero pSurvivor).flickerPhase = 1
    ∧ pSurvivor.angularSpeed = 3
    ∧ (frameStep mZero 0 100 200 rZero pSurvivor).angularSpeed = 3 := by
  norm_num [preRespawn, frameStep, wrapX, respawnCheck, respawn, advance, applyFlicker,
    flickerOf, rollLoopRadius, postRespawn, mZero, rZero, pSurvivor]

/-- C2 (amended): the respawn is an in-place mutation that
reinitializes exactly y, the horizontal anchor, the orbit angle and
the loop radius (recomputing x from them); the rise speed, horizontal
drift, base radius, flicker phase and angular speed of the particle
are preserved across the respawn. -/
theorem respawn_in_place_partial_reinit (m : JSMath) (w h : ℚ) (r : RespawnRand)
    (p : Particle) :
    (respawn m w h r p).speed = p.speed
    ∧ (respawn m w h r p).drift = p.drift
    ∧ (respawn m w h r p).baseSize = p.baseSize
    ∧ (respawn m w h r p).flickerPhase = p.flickerPhase
    ∧ (respawn m w h r p).angularSpeed = p.angularSpeed
    ∧ (respawn m w h r p).size = p.size
    ∧ (respawn m w h r p).y = h + p.size
    ∧ (respawn m w h r p).baseX = r.rBaseX * w
    ∧ (respawn m w h r p).angle = r.rAngle * m.PI * 2
    ∧ (respawn m w h r p).loopRadius = rollLoopRadius r.rLoop r.rRadius
    ∧ (respawn m w h r p).x
        = (respawn m w h r p).baseX
          + m.sin (respawn m w h r p).angle * (respawn m w h r p).loopRadius :=
  ⟨rfl, rfl, rfl, rfl, rfl, rfl, rfl, rfl, rfl, rfl, rfl⟩

/-- C4: If compilation of either shader stage (or program linking)
fails, the diagnostic log is written to the error log, the failed
shader object is deleted, and the renderer never invokes a draw call:
setup halts without starting the render loop, so no drawArrays is
ever issued for that instance.  The hypothesis on linkOk reflects the
WebGL guarantee that a program missing a stage never links. -/
theorem shader_failure_no_draw (gl : GLContext)
    (hlink : ∀ l : List ShaderKind, gl.linkOk l = true →
        ShaderKind.vertex ∈ l ∧ ShaderKind.fragment ∈ l)
    (hfail : gl.compileOk ShaderKind.vertex = false
        ∨ gl.compileOk ShaderKind.fragment = false
        ∨ gl.linkOk [ShaderKind.vertex, ShaderKind.fragment] = false) :
    (setup gl).renderLoop = false
    ∧ (∀ n : Nat, drawCallsAfter (setup gl) n = 0)
    ∧ (setup gl).errorLog ≠ []
    ∧ (∀ k : ShaderKind, gl.compileOk k = false →
        k ∈ (setup gl).deleted ∧ gl.shaderLog k ∈ (setup gl).errorLog) := by
  have hmain : (setup gl).renderLoop = false
      ∧ (setup gl).errorLog ≠ []
      ∧ (∀ k : ShaderKind, gl.compileOk k = false →
          k ∈ (setup gl).deleted ∧ gl.shaderLog k ∈ (setup gl).errorLog) := by
    cases hv : gl.compileOk ShaderKind.vertex <;> cases hfr : gl.compileOk ShaderKind.fragment
    · have hl : gl.linkOk [] = false := by
        cases hc : gl.linkOk ([] : List ShaderKind)
        · rfl
        · exact absurd ((hlink [] hc).1) (by simp)
      have hs : setup gl
          = ⟨[gl.shaderLog ShaderKind.vertex, gl.shaderLog ShaderKind.fragment,
              gl.programLog],
             [ShaderKind.vertex, ShaderKind.fragment], [], false⟩ := by
        simp [setup, compileShader, hv, hfr, hl]
      rw [hs]
      refine ⟨rfl, by simp, ?_⟩
      intro k hk
      cases k <;> simp
    · have hl : gl.linkOk [ShaderKind.fragment] = false := by
        cases hc : gl.linkOk [ShaderKind.fragment]
        · rfl
        · exact absurd ((hlink _ hc).1) (by simp)
      have hs : setup gl
          = ⟨[gl.shaderLog ShaderKind.vertex, gl.programLog],
             [ShaderKind.vertex], [ShaderKind.fragment], false⟩ := by
        simp [setup, compileShader, hv, hfr, hl]
      rw [hs]
      refine ⟨rfl, by simp, ?_⟩
      intro k hk
      cases k
      · simp
      · rw [hfr] at hk
        exact absurd hk (by simp)
    · have hl : gl.linkOk [ShaderKind.vertex] = false := by
        cases hc : gl.linkOk [ShaderKind.vertex]
        · rfl
        · exact absurd ((hlink _ hc).2) (by simp)
      have hs : setup gl
          = ⟨[gl.shaderLog ShaderKind.fragment, gl.programLog],
             [ShaderKind.fragment], [ShaderKind.vertex], false⟩ := by
        simp [setup, compileShader, hv, hfr, hl]
      rw [hs]
      refine ⟨rfl, by simp, ?_⟩
      intro k hk
      cases k
      · rw [hv] at hk
        exact absurd hk (by simp)
      · simp
    · have hl : gl.linkOk [ShaderKind.vertex, ShaderKind.fragment] = false := by
        rcases hfail with hcontra | hcontra | hcontra
        · rw [hv] at hcontra
          exact absurd hcontra (by simp)
        · rw [hfr] at hcontra
          exact absurd hcontra (by simp)
        · exact hcontra
      have hs : setup gl
          = ⟨[gl.programLog], [], [ShaderKind.vertex, ShaderKind.fragment], false⟩ := by
        simp [setup, compileShader, hv, hfr, hl]
      rw [hs]
      refine ⟨rfl, by simp, ?_⟩
      intro k hk
      cases k
      · rw [hv] at hk
        exact absurd hk (by simp)
      · rw [hfr] at hk
        exact absurd hk (by simp)
  exact ⟨hmain.1, fun n => by simp [drawCallsAfter, hmain.1], hmain.2.1, hmain.2.2⟩

theorem shader_failure_no_draw_witness :
    (setup glFail).renderLoop = false
    ∧ drawCallsAfter (setup glFail) 1000 = 0
    ∧ (setup glFail).errorLog ≠ []
    ∧ ShaderKind.vertex ∈ (setup glFail).deleted := by
  have hth := shader_failure_no_draw glFail
      (by intro l hl; simp [glFail] at hl)
      (Or.inl rfl)
  exact ⟨hth.1, hth.2.1 1000, hth.2.2.1, (hth.2.2.2 ShaderKind.vertex rfl).1⟩

end Kilnsoft
